import Mathlib

/-!
Verification development for the bounded-buffer formatted-output renderer in
src/printf.c.  The C code is shallowly embedded: machine integers are Nat/Int
with explicit reductions modulo powers of two where C performs unsigned
wraparound or narrowing conversions, the output buffer is a total function
from indices to characters together with a log of every raw store (index and
character) so that out-of-bounds stores are observable, and the two loops of
the program whose iteration count is not structurally bounded (the
left-justification space fill, and the top-level render loop) are driven by an
explicit fuel parameter; a result of none means the loop did not finish within
the given fuel, and a statement proved for every fuel amounts to divergence.
All definitions follow the corresponding C functions line by line and keep
their names.
-/

/-- Reduce an Int to an unsigned 32-bit value, as C does when an int is
converted to unsigned int. -/
def u32 (x : Int) : Nat := (x % 4294967296).toNat

/-- Reduce an Int to an unsigned 64-bit value (size_t arithmetic). -/
def u64 (x : Int) : Nat := (x % 18446744073709551616).toNat

/-- Reinterpret an Int at signed 8-bit width, as the C cast (char)x does. -/
def s8 (x : Int) : Int :=
  let m := x % 256
  if m < 128 then m else m - 256

/-- Reinterpret an Int at signed 16-bit width, as the C cast (short)x does. -/
def s16 (x : Int) : Int :=
  let m := x % 65536
  if m < 32768 then m else m - 65536

/-- Reinterpret an Int at signed 32-bit width, as the C cast (int)x does. -/
def s32 (x : Int) : Int :=
  let m := x % 4294967296
  if m < 2147483648 then m else m - 4294967296

/-- The null character, i.e. the C string terminator. -/
def nullChar : Char := Char.ofNat 0

/-- The output cursor: buffer capacity (outputSize), current write offset
(outPos, passed by pointer in C), the buffer contents as a total function so
that stores at any index are representable, and a log of every raw store
performed, newest first.  The capacity is carried in the state because C
passes the same constant outputSize to every helper. -/
structure St where
  cap : Nat
  pos : Nat
  mem : Nat → Char
  log : List (Nat × Char)

/-- A raw array store output[i] = c: updates the contents and records the
store in the log. -/
def writeMem (st : St) (i : Nat) (c : Char) : St :=
  { st with mem := fun j => if j = i then c else st.mem j, log := (i, c) :: st.log }

/-- A fresh output state of the given capacity with a zeroed buffer
(the C buffer contents before myPrintf runs are immaterial to the claims;
zero is chosen for concreteness). -/
def initSt (cap : Nat) : St :=
  { cap := cap, pos := 0, mem := fun _ => nullChar, log := [] }

/-- The C string held in the buffer: the characters from index 0 up to the
first null terminator, looking no further than the capacity. -/
def bufString (st : St) : List Char :=
  ((List.range st.cap).map st.mem).takeWhile (fun c => c ≠ nullChar)

/-- printChar, src/printf.c lines 127-133: drops the character when the
cursor has reached the capacity and reports 1/0 for written/dropped. -/
def printChar (charToPrint : Char) (st : St) : Nat × St :=
  if st.pos < st.cap then
    (1, { writeMem st st.pos charToPrint with pos := st.pos + 1 })
  else
    (0, st)

/-- The parser length modifiers, src/printf.c lines 16-18. -/
inductive Length where
  | LENGTH_DEFAULT
  | hh
  | h
  | hl
  | l
deriving DecidableEq

/-- The conversion specifiers, src/printf.c lines 20-39. -/
inductive Specifier where
  | SPEC_DEFAULT
  | SPEC_D
  | SPEC_I
  | SPEC_U
  | SPEC_O
  | SPEC_LOWER_X
  | SPEC_UPPER_X
  | SPEC_LOWER_F
  | SPEC_UPPER_F
  | SPEC_LOWER_E
  | SPEC_UPPER_E
  | SPEC_LOWER_G
  | SPEC_UPPER_G
  | SPEC_LOWER_A
  | SPEC_UPPER_A
  | SPEC_C
  | SPEC_S
  | SPEC_P
deriving DecidableEq

/-- The directive flags, src/printf.c lines 41-47 (ints holding 0/1 in C). -/
structure Flags where
  leftJustify : Bool
  forcePlusMinus : Bool
  spacePrefixPositiveNumber : Bool
  zeroPrefixedOrForceDecimal : Bool
  leftPadWithZeroes : Bool
deriving DecidableEq

/-- struct printSpecification, src/printf.c lines 49-56. -/
structure PrintSpec where
  f : Flags
  width : Int
  precision : Int
  vs : Int
  length : Length
  s : Specifier
deriving DecidableEq

/-- initPrintSpec, src/printf.c lines 108-125. -/
def initPrintSpec : PrintSpec :=
  { f := { leftJustify := false, forcePlusMinus := false,
           spacePrefixPositiveNumber := false, zeroPrefixedOrForceDecimal := false,
           leftPadWithZeroes := false },
    width := -1, precision := -1, vs := -1,
    length := Length.LENGTH_DEFAULT, s := Specifier.SPEC_DEFAULT }

/-- The padding amount computed at src/printf.c lines 141-142: ps.width is
converted to unsigned int (paddedSize), the subtraction happens in unsigned
int arithmetic, and the result is reinterpreted as a signed int. -/
def paddingAmountOf (width existingSize existingPrefixChars : Int) : Int :=
  s32 ((u32 width : Int) - existingSize - existingPrefixChars)

/-- The left-justification space fill, src/printf.c lines 156-158:
for (paddingWritten = 0; paddingWritten < paddingAmount;)
  paddingWritten += printChar(output, ' ', outPos, outSize);
The loop guard compares the unsigned paddingWritten against paddingAmount;
each pass adds printChar's 1/0 result.  Fueled because printChar contributes
0 once the buffer is full, so the count can stop making progress. -/
def leftFillLoop (paddingAmount : Int) : Nat → Nat → St → Option (Nat × St)
  | fuel, paddingWritten, st =>
    if (paddingWritten : Int) < paddingAmount then
      match fuel with
      | 0 => none
      | fuel + 1 =>
        let (r, st1) := printChar ' ' st
        leftFillLoop paddingAmount fuel (paddingWritten + r) st1
    else
      some (paddingWritten, st)

/-- The right-justification fill, src/printf.c lines 170-172:
for (unsigned int i = 0; i < paddingAmount; i++)
  paddingWritten += printChar(output, paddingChar, outPos, outSize);
A bounded loop of paddingAmount iterations. -/
def rightFillLoop (paddingChar : Char) : Nat → Nat → St → Nat × St
  | 0, paddingWritten, st => (paddingWritten, st)
  | n + 1, paddingWritten, st =>
    let (r, st1) := printChar paddingChar st
    rightFillLoop paddingChar n (paddingWritten + r) st1

/-- The rightward content move, src/printf.c lines 184-189:
for (i = existingSize; i >= 0; i--) {
  int from = stringStart + i; int to = from + paddingAmount;
  output[to] = output[from]; }
The index argument is the current loop counter i; the recursion performs the
iterations i, i-1, ..., 0 in that (descending) order. -/
def shiftLoop (stringStart paddingAmount : Nat) : Nat → St → St
  | 0, st => writeMem st (stringStart + paddingAmount) (st.mem stringStart)
  | i + 1, st =>
    shiftLoop stringStart paddingAmount i
      (writeMem st (stringStart + (i + 1) + paddingAmount) (st.mem (stringStart + (i + 1))))

/-- The left-hand fill after the move, src/printf.c lines 191-193:
for (i = 0; i < paddingAmount; i++) output[stringStart + i] = paddingChar;
The first argument of the recursion is the current i, the second the number
of iterations still to perform. -/
def fillLoopA (stringStart : Nat) (paddingChar : Char) : Nat → Nat → St → St
  | _, 0, st => st
  | i, n + 1, st => fillLoopA stringStart paddingChar (i + 1) n (writeMem st (stringStart + i) paddingChar)

/-- padString, src/printf.c lines 135-196.  Note that the C code captures
startingPos before the right-justification fill, computes stringStart with
unsigned int arithmetic, and that the shift loop runs from i = existingSize
down to i = 0 inclusive (no iterations when existingSize is negative). -/
def padString (fuel : Nat) (st : St) (existingSize existingPrefixChars : Int)
    (ps : PrintSpec) : Option (Int × St) :=
  let paddingAmount : Int := paddingAmountOf ps.width existingSize existingPrefixChars
  if paddingAmount ≤ 0 then
    some (0, st)
  else if ps.f.leftJustify then
    match leftFillLoop paddingAmount fuel 0 st with
    | none => none
    | some (paddingWritten, st1) =>
      if paddingAmount ≠ (paddingWritten : Int) then some (-1, st1) else some (0, st1)
  else
    let paddingChar : Char :=
      if ps.f.leftPadWithZeroes ∧ ps.s ≠ Specifier.SPEC_S then '0' else ' '
    let startingPos : Nat := st.pos
    let fill := rightFillLoop paddingChar paddingAmount.toNat 0 st
    let paddingWritten := fill.1
    let st1 := fill.2
    if paddingAmount ≠ (paddingWritten : Int) then some (-1, st1)
    else
      let stringStart : Nat := u32 ((startingPos : Int) - existingSize)
      let st2 := if existingSize < 0 then st1
                 else shiftLoop stringStart paddingAmount.toNat existingSize.toNat st1
      let st3 := fillLoopA stringStart paddingChar 0 paddingAmount.toNat st2
      some (0, st3)

/-- printSign, src/printf.c lines 266-273. -/
def printSign (ps : PrintSpec) (st : St) (isPositive : Bool) : Nat × St :=
  if ps.f.forcePlusMinus || !isPositive then
    printChar (if isPositive then '+' else '-') st
  else if isPositive && ps.f.spacePrefixPositiveNumber then
    printChar ' ' st
  else
    (0, st)

/-- printDigit, src/printf.c lines 275-316: a negative digit is replaced by
its absolute value, digits 0-15 map to their characters (case selected for
10-15), anything else is printed as nothing with result 0. -/
def printDigit (digit : Int) (upperCase : Bool) (st : St) : Nat × St :=
  match digit.natAbs with
  | 0 => printChar '0' st
  | 1 => printChar '1' st
  | 2 => printChar '2' st
  | 3 => printChar '3' st
  | 4 => printChar '4' st
  | 5 => printChar '5' st
  | 6 => printChar '6' st
  | 7 => printChar '7' st
  | 8 => printChar '8' st
  | 9 => printChar '9' st
  | 10 => printChar (if upperCase then 'A' else 'a') st
  | 11 => printChar (if upperCase then 'B' else 'b') st
  | 12 => printChar (if upperCase then 'C' else 'c') st
  | 13 => printChar (if upperCase then 'D' else 'd') st
  | 14 => printChar (if upperCase then 'E' else 'e') st
  | 15 => printChar (if upperCase then 'F' else 'f') st
  | _ => (0, st)

/-- One swap of reverseString, src/printf.c lines 323-326: tmp is read first,
then output[laterPos] and output[startPos + i] are stored in that order. -/
def swapOnce (st : St) (earlier later : Nat) : St :=
  let tmp := st.mem later
  let st1 := writeMem st later (st.mem earlier)
  writeMem st1 earlier tmp

/-- The loop of reverseString, src/printf.c lines 322-327, iterating
i = 0, 1, ... with the given number of iterations remaining
(strLength / 2 at the start). -/
def reverseSwaps (outPos startPos : Nat) : Nat → Nat → St → St
  | _, 0, st => st
  | i, n + 1, st =>
    reverseSwaps outPos startPos (i + 1) n (swapOnce st (startPos + i) (outPos - i - 1))

/-- reverseString, src/printf.c lines 318-328: flips the characters from
startPos to the current cursor; the cursor itself is only read. -/
def reverseString (st : St) (startPos : Nat) : St :=
  reverseSwaps st.pos startPos 0 ((st.pos - startPos) / 2) st

/-- The digit-emission do/while of printUnsigned, src/printf.c lines 333-336:
do { printDigit(value % base); value = value / base; } while (value != 0);
Fueled (one unit per extra pass); every call site passes base 8, 10 or 16,
for which value / base strictly decreases.  The dead check of printDigit's
unsigned result against < 0 (line 334) is omitted: it can never fire. -/
def printUnsignedDigits (base : Nat) (upperCase : Bool) : Nat → Nat → St → Option St
  | fuel, value, st =>
    let st1 := (printDigit (value % base : Nat) upperCase st).2
    if value / base = 0 then some st1
    else
      match fuel with
      | 0 => none
      | fuel + 1 => printUnsignedDigits base upperCase fuel (value / base) st1

/-- printUnsigned, src/printf.c lines 330-340: emit the digits in reverse and
flip them.  The C function has no return statement on the fall-through path
(its declared int result is indeterminate); the callers compare that
indeterminate value against < 0, a branch that is never observed taken (the
only return inside the loop is dead, see printUnsignedDigits), so the
embedding returns the state alone and the callers proceed. -/
def printUnsigned (fuel : Nat) (st : St) (value base : Nat) (upperCase : Bool) : Option St :=
  let startPos := st.pos
  match printUnsignedDigits base upperCase fuel value st with
  | none => none
  | some st1 => some (reverseString st1 startPos)

/-- wrapValueToSize, src/printf.c lines 342-354: truncate an unsigned value
at the width declared by the length modifier (hl falls through to the
default unsigned int case). -/
def wrapValueToSize (ps : PrintSpec) (value : Nat) : Nat :=
  match ps.length with
  | Length.hh => value % 256
  | Length.h => value % 65536
  | Length.l => value
  | Length.hl => value % 4294967296
  | Length.LENGTH_DEFAULT => value % 4294967296

/-- printOctal, src/printf.c lines 356-367. -/
def printOctal (fuel : Nat) (ps : PrintSpec) (st : St) (value : Nat) : Option (Int × St) :=
  let value := wrapValueToSize ps value
  if value = 0 ∧ ps.precision = 0 then some (0, st)
  else
    let startPos := st.pos
    match printUnsigned fuel st value 8 false with
    | none => none
    | some st1 => padString fuel st1 ((st1.pos - startPos : Nat) : Int) 0 ps

/-- printUnsignedLong, src/printf.c lines 369-380. -/
def printUnsignedLong (fuel : Nat) (ps : PrintSpec) (st : St) (value : Nat) : Option (Int × St) :=
  let value := wrapValueToSize ps value
  if value = 0 ∧ ps.precision = 0 then some (0, st)
  else
    let startPos := st.pos
    match printUnsigned fuel st value 10 false with
    | none => none
    | some st1 => padString fuel st1 ((st1.pos - startPos : Nat) : Int) 0 ps

/-- printHex, src/printf.c lines 382-398: after the length truncation and the
precision-0 early return, the alternate form emits the 0x / 0X prefix
unconditionally on the value, then the digits are emitted and the field is
padded with existingPrefixChars = 0 (the prefix is not accounted for). -/
def printHex (fuel : Nat) (ps : PrintSpec) (st : St) (value : Nat) : Option (Int × St) :=
  let value := wrapValueToSize ps value
  if value = 0 ∧ ps.precision = 0 then some (0, st)
  else
    let st0 :=
      if ps.f.zeroPrefixedOrForceDecimal then
        (printChar (if ps.s = Specifier.SPEC_LOWER_X then 'x' else 'X') (printChar '0' st).2).2
      else st
    let startPos := st0.pos
    match printUnsigned fuel st0 value 16 (ps.s = Specifier.SPEC_UPPER_X) with
    | none => none
    | some st1 => padString fuel st1 ((st1.pos - startPos : Nat) : Int) 0 ps

/-- The length-modifier truncation of printLong, src/printf.c lines 468-481:
the value is reinterpreted at the declared signed width (hl falls through to
the default int case, l keeps the long value). -/
def printLongTrunc : Length → Int → Int
  | Length.hh, v => s8 v
  | Length.h, v => s16 v
  | Length.l, v => v
  | Length.hl, v => s32 v
  | Length.LENGTH_DEFAULT, v => s32 v

/-- The digit-emission do/while of printLong, src/printf.c lines 493-496,
in C truncating division and remainder (Int.tdiv / Int.tmod); printDigit
takes the absolute value of a negative remainder.  Fueled like
printUnsignedDigits. -/
def printLongDigits : Nat → Int → St → Option St
  | fuel, value, st =>
    let st1 := (printDigit (value.tmod 10) false st).2
    if value.tdiv 10 = 0 then some st1
    else
      match fuel with
      | 0 => none
      | fuel + 1 => printLongDigits fuel (value.tdiv 10) st1

/-- printLong, src/printf.c lines 467-502: truncate at the declared width,
return 0 at once when the truncated value is 0 and the precision is 0,
otherwise print the sign (its printChar result becomes the prefix-character
count handed to padString), emit the digits in reverse, flip them, and pad. -/
def printLong (fuel : Nat) (ps : PrintSpec) (st : St) (value : Int) : Option (Int × St) :=
  let value := printLongTrunc ps.length value
  if value = 0 ∧ ps.precision = 0 then some (0, st)
  else
    let sign := printSign ps st (decide (0 ≤ value))
    let signChars := sign.1
    let st1 := sign.2
    let startPos := st1.pos
    match printLongDigits fuel value st1 with
    | none => none
    | some st2 =>
      let st3 := reverseString st2 startPos
      padString fuel st3 ((st3.pos - startPos : Nat) : Int) (signChars : Int) ps

/-- The scan loop of printString, src/printf.c lines 256-262:
while (printed < max && *outPos < outSize) { if (string[printed] == 0) break;
printChar(string[printed++]); }.  printed is a size_t, so max takes part in
the comparison converted to unsigned 64-bit (maxU below).  Reading past the
end of the argument list models reading the bytes after a C string's
terminator as the terminator itself.  Fueled (one unit per character
printed); the dead comparison of printChar's unsigned result with < 0 (line
261) is omitted. -/
def printStringScan (string : List Char) (maxU : Nat) : Nat → Nat → St → Option (Nat × St)
  | fuel, printed, st =>
    if printed < maxU ∧ st.pos < st.cap then
      if string.getD printed nullChar = nullChar then some (printed, st)
      else
        match fuel with
        | 0 => none
        | fuel + 1 =>
          let (_, st1) := printChar (string.getD printed nullChar) st
          printStringScan string maxU fuel (printed + 1) st1
    else
      some (printed, st)

/-- printString, src/printf.c lines 248-264: max is the precision, or the
remaining capacity (converted through int) when the precision is the -1
sentinel; the scan loop then runs and the written span is padded. -/
def printString (fuel : Nat) (ps : PrintSpec) (st : St) (string : List Char) :
    Option (Int × St) :=
  let max : Int := if ps.precision = -1 then s32 ((st.cap : Int) - (st.pos : Int)) else ps.precision
  let startingPos := st.pos
  match printStringScan string (u64 max) fuel 0 st with
  | none => none
  | some r => padString fuel r.2 ((r.2.pos - startingPos : Nat) : Int) 0 ps

/-- The two notations the shortest-representation conversion can delegate
to, src/printf.c lines 550-556: printFloat (fixed) or printScientific. -/
inductive FloatForm where
  | fixed
  | scientific
deriving DecidableEq

/-- The branch selection of printShortestFloat, src/printf.c lines 539-557:
the effective precision is the requested one, or 6 when the -1 sentinel is
present, or 1 when 0 was requested; the exponent argument stands for the
value of (long) floor(log10(fabs(value))) computed at line 547 (the
floating-point computation itself is abstracted into this integer); the
result is the delegated conversion together with the precision stored into
ps->precision before delegating. -/
def printShortestFloatChoice (precIn exponent : Int) : FloatForm × Int :=
  let precision := if precIn < 0 then 6 else if precIn = 0 then 1 else precIn
  if precision > exponent ∧ exponent ≥ -4 then
    (FloatForm.fixed, precision - (exponent + 1))
  else
    (FloatForm.scientific, precision - 1)

/-- One variadic argument, typed by the conversion that will consume it
(int-family, unsigned-family, or char pointer); supplying the wrong kind is
the undefined behavior the boundary contract excludes, and takes the run
outside the model (none). -/
inductive Arg where
  | i (v : Int)
  | n (v : Nat)
  | s (v : List Char)

/-- va_arg for the int family. -/
def popInt : List Arg → Option (Int × List Arg)
  | Arg.i v :: rest => some (v, rest)
  | _ => none

/-- va_arg for the unsigned family. -/
def popNat : List Arg → Option (Nat × List Arg)
  | Arg.n v :: rest => some (v, rest)
  | _ => none

/-- va_arg for char pointers. -/
def popStr : List Arg → Option (List Char × List Arg)
  | Arg.s v :: rest => some (v, rest)
  | _ => none

/-- The digit switch of readUnsigned, src/printf.c lines 209-237: cases for
the characters 1-9 add their value; the character 0 has no case and adds
nothing. -/
def digitAdd : Char → Nat
  | '1' => 1
  | '2' => 2
  | '3' => 3
  | '4' => 4
  | '5' => 5
  | '6' => 6
  | '7' => 7
  | '8' => 8
  | '9' => 9
  | _ => 0

/-- The scan loop of readUnsigned, src/printf.c lines 205-240, on unsigned
int arithmetic (val *= 10 and val += d both wrap modulo 2^32).  Returns
(foundValue, val, position after the digits); reading past the end of the
format list yields the terminator.  Fueled, one unit per digit. -/
def readUnsignedLoop (fmt : List Char) : Nat → Nat → Nat → Bool → Option (Bool × Nat × Nat)
  | fuel, pos, val, foundValue =>
    let fmtChar := fmt.getD pos nullChar
    if '0' ≤ fmtChar ∧ fmtChar ≤ '9' then
      match fuel with
      | 0 => none
      | fuel + 1 =>
        readUnsignedLoop fmt fuel (pos + 1) ((val * 10 % 4294967296 + digitAdd fmtChar) % 4294967296) true
    else
      some (foundValue, val, pos)

/-- readUnsigned, src/printf.c lines 200-246: the caller's variable is
updated only when foundValue is set, and the position moves only over
digits. -/
def readUnsigned (fuel : Nat) (fmt : List Char) (pos : Nat) : Option (Bool × Nat × Nat) :=
  readUnsignedLoop fmt fuel pos 0 false

/-- The flag-reading loop of nextToken, src/printf.c lines 581-613: consume
flag characters greedily, setting the matching flag; a non-flag character
ends the loop without being consumed.  Fueled, one unit per flag. -/
def readFlagsLoop (fmt : List Char) : Nat → Nat → Flags → Option (Nat × Flags)
  | fuel, pos, f =>
    let peek := fmt.getD pos nullChar
    if peek = '-' ∨ peek = '+' ∨ peek = ' ' ∨ peek = '#' ∨ peek = '0' then
      match fuel with
      | 0 => none
      | fuel + 1 =>
        let f :=
          if peek = '-' then { f with leftJustify := true }
          else if peek = '+' then { f with forcePlusMinus := true }
          else if peek = ' ' then { f with spacePrefixPositiveNumber := true }
          else if peek = '#' then { f with zeroPrefixedOrForceDecimal := true }
          else { f with leftPadWithZeroes := true }
        readFlagsLoop fmt fuel (pos + 1) f
    else
      some (pos, f)

/-- The length-modifier loop of nextToken, src/printf.c lines 653-690:
h advances default to h and h to hh, l advances default to l and h to hl;
any other combination makes no progress and ends the loop.  Fueled, one
unit per consumed modifier. -/
def readLengthLoop (fmt : List Char) : Nat → Nat → Length → Option (Nat × Length)
  | fuel, pos, len =>
    let peek := fmt.getD pos nullChar
    let step : Option Length :=
      if peek = 'h' then
        match len with
        | Length.LENGTH_DEFAULT => some Length.h
        | Length.h => some Length.hh
        | _ => none
      else if peek = 'l' then
        match len with
        | Length.LENGTH_DEFAULT => some Length.l
        | Length.h => some Length.hl
        | _ => none
      else none
    match step with
    | none => some (pos, len)
    | some len1 =>
      match fuel with
      | 0 => none
      | fuel + 1 => readLengthLoop fmt fuel (pos + 1) len1

/-- The specifier switch of nextToken, src/printf.c lines 692-756, given the
already-consumed conversion character: each case sets ps.s and dispatches,
reading its argument; 'c' prints the argument converted to unsigned char
directly through printChar, ignoring the parsed specification; an unknown
character returns -1.  The floating-point conversions (g G f F e E) render
through the floating-point formatter, which is outside this embedding (the
shortest-representation selection itself is modelled separately by
printShortestFloatChoice), so those four branches leave the model: none. -/
def dispatchSpecifier (fuel : Nat) (specifier : Char) (ps : PrintSpec) (st : St)
    (args : List Arg) : Option (Int × St × List Arg) :=
  match specifier with
  | 'g' => none
  | 'G' => none
  | 'f' => none
  | 'F' => none
  | 'e' => none
  | 'E' => none
  | 's' =>
    match popStr args with
    | none => none
    | some (str, rest) =>
      match printString fuel { ps with s := Specifier.SPEC_S } st str with
      | none => none
      | some (r, st1) => some (r, st1, rest)
  | 'c' =>
    match popInt args with
    | none => none
    | some (v, rest) =>
      let pr := printChar (Char.ofNat (u32 v % 256)) st
      some (if pr.1 ≠ 0 then 0 else -1, pr.2, rest)
  | 'o' =>
    match popNat args with
    | none => none
    | some (v, rest) =>
      let ps := { ps with s := Specifier.SPEC_O }
      match (if ps.length ≠ Length.l then printOctal fuel ps st (v % 4294967296)
             else printOctal fuel ps st (v % 18446744073709551616)) with
      | none => none
      | some (r, st1) => some (r, st1, rest)
  | 'd' =>
    match popInt args with
    | none => none
    | some (v, rest) =>
      let ps := { ps with s := Specifier.SPEC_D }
      match (if ps.length ≠ Length.l then printLong fuel ps st (s32 v)
             else printLong fuel ps st v) with
      | none => none
      | some (r, st1) => some (r, st1, rest)
  | 'i' =>
    match popInt args with
    | none => none
    | some (v, rest) =>
      let ps := { ps with s := Specifier.SPEC_D }
      match (if ps.length ≠ Length.l then printLong fuel ps st (s32 v)
             else printLong fuel ps st v) with
      | none => none
      | some (r, st1) => some (r, st1, rest)
  | 'u' =>
    match popNat args with
    | none => none
    | some (v, rest) =>
      let ps := { ps with s := Specifier.SPEC_U }
      match (if ps.length ≠ Length.l then printUnsignedLong fuel ps st (v % 4294967296)
             else printUnsignedLong fuel ps st (v % 18446744073709551616)) with
      | none => none
      | some (r, st1) => some (r, st1, rest)
  | 'x' =>
    match popNat args with
    | none => none
    | some (v, rest) =>
      let ps := { ps with s := Specifier.SPEC_LOWER_X }
      match (if ps.length ≠ Length.l then printHex fuel ps st (v % 4294967296)
             else printHex fuel ps st (v % 18446744073709551616)) with
      | none => none
      | some (r, st1) => some (r, st1, rest)
  | 'X' =>
    match popNat args with
    | none => none
    | some (v, rest) =>
      let ps := { ps with s := Specifier.SPEC_UPPER_X }
      match (if ps.length ≠ Length.l then printHex fuel ps st (v % 4294967296)
             else printHex fuel ps st (v % 18446744073709551616)) with
      | none => none
      | some (r, st1) => some (r, st1, rest)
  | _ => some (-1, st, args)

/-- nextToken, src/printf.c lines 559-761: consume one character; a
non-percent character is printed literally (failure when dropped), a %%
prints one percent, and otherwise the directive is parsed phase by phase
(flags, width with * support, precision with * and bare-period support, the
vector-size phase that reads nothing, length modifiers) and dispatched on
the conversion character.  Returns (result, new format position, state,
remaining arguments). -/
def nextToken (fuel : Nat) (fmt : List Char) (fmtPos0 : Nat) (st : St) (args : List Arg) :
    Option (Int × Nat × St × List Arg) :=
  let next := fmt.getD fmtPos0 nullChar
  let fmtPos := fmtPos0 + 1
  if next ≠ '%' then
    let pr := printChar next st
    some (if pr.1 ≠ 0 then 0 else -1, fmtPos, pr.2, args)
  else if fmt.getD fmtPos nullChar = '%' then
    let pr := printChar (fmt.getD fmtPos nullChar) st
    some (if pr.1 ≠ 0 then 0 else -1, fmtPos + 1, pr.2, args)
  else
    match readFlagsLoop fmt fuel fmtPos initPrintSpec.f with
    | none => none
    | some (fmtPos, f) =>
      let f := if f.spacePrefixPositiveNumber && f.forcePlusMinus then
                 { f with spacePrefixPositiveNumber := false }
               else f
      let widthStep : Option (Nat × Int × List Arg) :=
        if fmt.getD fmtPos nullChar = '*' then
          match popInt args with
          | none => none
          | some (v, rest) => some (fmtPos + 1, s32 v, rest)
        else
          match readUnsigned fuel fmt fmtPos with
          | none => none
          | some (found, val, pos1) =>
            some (pos1, if found then s32 (val : Int) else initPrintSpec.width, args)
      match widthStep with
      | none => none
      | some (fmtPos, width, args) =>
        let precStep : Option (Nat × Int × List Arg) :=
          if fmt.getD fmtPos nullChar = '.' then
            let fmtPos := fmtPos + 1
            if fmt.getD fmtPos nullChar = '*' then
              match popInt args with
              | none => none
              | some (v, rest) => some (fmtPos + 1, s32 v, rest)
            else
              match readUnsigned fuel fmt fmtPos with
              | none => none
              | some (found, val, pos1) =>
                some (pos1, if found then s32 (val : Int) else 0, args)
          else
            some (fmtPos, initPrintSpec.precision, args)
        match precStep with
        | none => none
        | some (fmtPos, precision, args) =>
          match readLengthLoop fmt fuel fmtPos Length.LENGTH_DEFAULT with
          | none => none
          | some (fmtPos, len) =>
            let ps : PrintSpec :=
              { f := f, width := width, precision := precision,
                vs := initPrintSpec.vs, length := len, s := initPrintSpec.s }
            let specifier := fmt.getD fmtPos nullChar
            let fmtPos := fmtPos + 1
            match dispatchSpecifier fuel specifier ps st args with
            | none => none
            | some (r, st1, args1) => some (r, fmtPos, st1, args1)

/-- The render loop of myPrintf, src/printf.c line 805:
while ((nextChar = fmt[fmtPos]) != 0 && outPos < out_size && !ret)
  ret = nextToken(...);
Fueled, one unit per token. -/
def myPrintfLoop (fmt : List Char) : Nat → Nat → St → List Arg → Option (Int × St)
  | fuel, fmtPos, st, args =>
    if fmt.getD fmtPos nullChar ≠ nullChar ∧ st.pos < st.cap then
      match fuel with
      | 0 => none
      | fuel + 1 =>
        match nextToken fuel fmt fmtPos st args with
        | none => none
        | some (ret, fmtPos1, st1, args1) =>
          if ret ≠ 0 then some (ret, st1)
          else myPrintfLoop fmt fuel fmtPos1 st1 args1
    else
      some (0, st)

/-- myPrintf, src/printf.c lines 763-819: reset the cursor, run the render
loop, then null-terminate: when outPos < out_size - 1 (size_t arithmetic)
the terminator goes at outPos, otherwise at outPos - 1 - 1 computed on
unsigned int (so the index wraps modulo 2^32 when outPos < 2), and the
loop's result is returned. -/
def myPrintf (fuel : Nat) (st0 : St) (fmt : List Char) (args : List Arg) :
    Option (Int × St) :=
  let st := { st0 with pos := 0 }
  match myPrintfLoop fmt fuel 0 st args with
  | none => none
  | some (ret, st1) =>
    let st2 :=
      if st1.pos < u64 ((st1.cap : Int) - 1) then writeMem st1 st1.pos nullChar
      else writeMem st1 (u32 ((st1.pos : Int) - 1 - 1)) nullChar
    some (ret, st2)

/-- Spec-side definition (section 4.2 and the C8 claim): the bit width
declared by each length modifier: 8, 16, 32 (hl and the default), 64. -/
def declaredBits : Length → Nat
  | Length.hh => 8
  | Length.h => 16
  | Length.hl => 32
  | Length.LENGTH_DEFAULT => 32
  | Length.l => 64

/-- Spec-side definition (the C8 claim): reduce a signed value modulo 2^bits
and sign-extend, i.e. exact two's-complement wraparound at the declared
width. -/
def signExtend (bits : Nat) (v : Int) : Int :=
  (v + 2 ^ (bits - 1)) % 2 ^ bits - 2 ^ (bits - 1)

/-- The parsed specification of the directive in the template used for the
C2 divergence run: percent, minus flag, width 5, string conversion. -/
def psC2 : PrintSpec :=
  { f := { leftJustify := true, forcePlusMinus := false, spacePrefixPositiveNumber := false,
           zeroPrefixedOrForceDecimal := false, leftPadWithZeroes := false },
    width := 5, precision := -1, vs := -1, length := Length.LENGTH_DEFAULT,
    s := Specifier.SPEC_S }

/-- The flags parsed from the minus flag alone. -/
def fC2 : Flags :=
  { leftJustify := true, forcePlusMinus := false, spacePrefixPositiveNumber := false,
    zeroPrefixedOrForceDecimal := false, leftPadWithZeroes := false }

/-- A specification with the force-sign flag, width 5 and precision 0
(the directive percent plus 5 dot 0 d), used for claim C3. -/
def psPlus : PrintSpec :=
  { f := { leftJustify := false, forcePlusMinus := true, spacePrefixPositiveNumber := false,
           zeroPrefixedOrForceDecimal := false, leftPadWithZeroes := false },
    width := 5, precision := 0, vs := -1, length := Length.LENGTH_DEFAULT,
    s := Specifier.SPEC_D }

/-- A plain right-justified width-5 specification, used for claim C4. -/
def psNoLJ : PrintSpec :=
  { f := { leftJustify := false, forcePlusMinus := false, spacePrefixPositiveNumber := false,
           zeroPrefixedOrForceDecimal := false, leftPadWithZeroes := false },
    width := 5, precision := -1, vs := -1, length := Length.LENGTH_DEFAULT,
    s := Specifier.SPEC_D }

/-- A state whose buffer is already full (capacity 2, offset 2). -/
def stFull : St := { cap := 2, pos := 2, mem := fun _ => ' ', log := [] }

/-- A state with one free cell left (capacity 2, offset 1). -/
def stPart : St := { cap := 2, pos := 1, mem := fun _ => ' ', log := [] }

/-- A zero-pad right-justified width-4 signed-decimal specification, used
for the claim C5 witness. -/
def psC5 : PrintSpec :=
  { f := { leftJustify := false, forcePlusMinus := true, spacePrefixPositiveNumber := false,
           zeroPrefixedOrForceDecimal := false, leftPadWithZeroes := true },
    width := 4, precision := -1, vs := -1, length := Length.LENGTH_DEFAULT,
    s := Specifier.SPEC_D }

/-- A state holding a sign and one digit (plus at 0, digit 7 at 1), offset 2,
capacity 10, used for the claim C5 witness. -/
def stC5 : St :=
  { cap := 10, pos := 2, mem := fun j => if j = 0 then '+' else if j = 1 then '7' else ' ',
    log := [] }

/-- A specification with the 8-bit length modifier, used for claim C8. -/
def psHH : PrintSpec :=
  { f := { leftJustify := false, forcePlusMinus := false, spacePrefixPositiveNumber := false,
           zeroPrefixedOrForceDecimal := false, leftPadWithZeroes := false },
    width := -1, precision := -1, vs := -1, length := Length.hh,
    s := Specifier.SPEC_D }

/-- An empty state with room, used for the claim C10 witness. -/
def stRoom : St := { cap := 4, pos := 0, mem := fun _ => ' ', log := [] }

/-- A specification with every flag raised and a large width and precision,
used for the claim C10 witness. -/
def psLoud : PrintSpec :=
  { f := { leftJustify := true, forcePlusMinus := true, spacePrefixPositiveNumber := true,
           zeroPrefixedOrForceDecimal := true, leftPadWithZeroes := true },
    width := 9, precision := 7, vs := -1, length := Length.hh,
    s := Specifier.SPEC_C }

/-! Helper lemmas about the padding engine and the loops. -/

theorem writeMem_cap (st : St) (i : Nat) (c : Char) : (writeMem st i c).cap = st.cap := rfl

theorem writeMem_pos (st : St) (i : Nat) (c : Char) : (writeMem st i c).pos = st.pos := rfl

theorem writeMem_mem (st : St) (i : Nat) (c : Char) (j : Nat) :
    (writeMem st i c).mem j = if j = i then c else st.mem j := rfl

theorem writeMem_mem_eq (st : St) (i : Nat) (c : Char) : (writeMem st i c).mem i = c := by
  rw [writeMem_mem, if_pos rfl]

theorem writeMem_mem_ne (st : St) (i : Nat) (c : Char) (j : Nat) (h : j ≠ i) :
    (writeMem st i c).mem j = st.mem j := by
  rw [writeMem_mem, if_neg h]

theorem printChar_drop (c : Char) (st : St) (h : st.cap ≤ st.pos) : printChar c st = (0, st) := by
  simp [printChar, Nat.not_lt.2 h]

theorem leftFillLoop_none (paddingAmount : Int) :
    ∀ (fuel paddingWritten : Nat) (st : St), st.cap ≤ st.pos →
      (paddingWritten : Int) < paddingAmount →
      leftFillLoop paddingAmount fuel paddingWritten st = none := by
  intro fuel
  induction fuel with
  | zero =>
    intro pw st hc hlt
    simp [leftFillLoop, hlt]
  | succ n ih =>
    intro pw st hc hlt
    rw [leftFillLoop, if_pos hlt, printChar_drop ' ' st hc]
    simpa using ih pw st hc hlt

theorem rightFillLoop_pw (c : Char) :
    ∀ (n paddingWritten : Nat) (st : St), st.pos ≤ st.cap →
      (rightFillLoop c n paddingWritten st).1 = paddingWritten + min n (st.cap - st.pos) ∧
      (rightFillLoop c n paddingWritten st).2.pos = min (st.pos + n) st.cap ∧
      (rightFillLoop c n paddingWritten st).2.cap = st.cap := by
  intro n
  induction n with
  | zero => intro pw st h; simp [rightFillLoop]; omega
  | succ m ih =>
    intro pw st h
    rw [rightFillLoop]
    by_cases hlt : st.pos < st.cap
    · rw [printChar]
      simp only [if_pos hlt]
      have := ih (pw + 1) { writeMem st st.pos c with pos := st.pos + 1 }
      simp only [writeMem] at this ⊢
      obtain ⟨h1, h2, h3⟩ := this (by simpa using hlt)
      refine ⟨?_, ?_, ?_⟩
      · rw [h1]; omega
      · rw [h2]; omega
      · exact h3
    · rw [printChar_drop c st (Nat.not_lt.1 hlt)]
      obtain ⟨h1, h2, h3⟩ := ih (pw + 0) st h
      refine ⟨?_, ?_, ?_⟩
      · rw [h1]; omega
      · rw [h2]; omega
      · exact h3

theorem rightFillLoop_mem_low (c : Char) :
    ∀ (n paddingWritten : Nat) (st : St) (j : Nat), j < st.pos →
      (rightFillLoop c n paddingWritten st).2.mem j = st.mem j := by
  intro n
  induction n with
  | zero => intro pw st j hj; simp [rightFillLoop]
  | succ m ih =>
    intro pw st j hj
    rw [rightFillLoop]
    by_cases hlt : st.pos < st.cap
    · rw [printChar, if_pos hlt]
      have := ih (pw + 1) { writeMem st st.pos c with pos := st.pos + 1 } j (by simp [writeMem]; omega)
      simp only [writeMem] at this ⊢
      rw [this]
      simp
      intro hje
      omega
    · rw [printChar_drop c st (Nat.not_lt.1 hlt)]
      exact ih (pw + 0) st j hj

theorem rightFillLoop_mem_full (c : Char) :
    ∀ (n paddingWritten : Nat) (st : St), st.pos + n ≤ st.cap → ∀ (j : Nat),
      (rightFillLoop c n paddingWritten st).2.mem j =
        if st.pos ≤ j ∧ j < st.pos + n then c else st.mem j := by
  intro n
  induction n with
  | zero =>
    intro pw st h j
    rw [rightFillLoop, if_neg (by omega : ¬(st.pos ≤ j ∧ j < st.pos + 0))]
  | succ m ih =>
    intro pw st h j
    have hlt : st.pos < st.cap := by omega
    rw [rightFillLoop, printChar, if_pos hlt]
    have := ih (pw + 1) { writeMem st st.pos c with pos := st.pos + 1 } (by simp [writeMem]; omega) j
    simp only [writeMem] at this ⊢
    rw [this]
    by_cases h1 : st.pos + 1 ≤ j ∧ j < st.pos + 1 + m
    · rw [if_pos h1, if_pos (by omega)]
    · rw [if_neg h1]
      by_cases h2 : j = st.pos
      · rw [if_pos h2, if_pos (by omega)]
      · rw [if_neg h2, if_neg (by omega)]

theorem shiftLoop_spec (ss pa : Nat) :
    ∀ (i : Nat) (st : St),
      (shiftLoop ss pa i st).cap = st.cap ∧
      (shiftLoop ss pa i st).pos = st.pos ∧
      (∀ j, j < ss + pa → (shiftLoop ss pa i st).mem j = st.mem j) ∧
      (∀ j, ss + i + pa < j → (shiftLoop ss pa i st).mem j = st.mem j) ∧
      (∀ k, k ≤ i → (shiftLoop ss pa i st).mem (ss + k + pa) = st.mem (ss + k)) := by
  intro i
  induction i with
  | zero =>
    intro st
    rw [shiftLoop]
    refine ⟨writeMem_cap .., writeMem_pos .., ?_, ?_, ?_⟩
    · intro j hj
      exact writeMem_mem_ne _ _ _ j (by omega)
    · intro j hj
      exact writeMem_mem_ne _ _ _ j (by omega)
    · intro k hk
      have hk0 : k = 0 := by omega
      subst hk0
      simpa using writeMem_mem_eq st (ss + pa) (st.mem ss)
  | succ m ih =>
    intro st
    rw [shiftLoop]
    obtain ⟨h1, h2, h3, h4, h5⟩ :=
      ih (writeMem st (ss + (m + 1) + pa) (st.mem (ss + (m + 1))))
    refine ⟨by rw [h1, writeMem_cap], by rw [h2, writeMem_pos], ?_, ?_, ?_⟩
    · intro j hj
      rw [h3 j hj, writeMem_mem_ne _ _ _ j (by omega)]
    · intro j hj
      rw [h4 j (by omega), writeMem_mem_ne _ _ _ j (by omega)]
    · intro k hk
      by_cases hke : k = m + 1
      · subst hke
        rw [h4 (ss + (m + 1) + pa) (by omega), writeMem_mem_eq]
      · have hkm : k ≤ m := by omega
        rw [h5 k hkm, writeMem_mem_ne _ _ _ _ (by omega)]

theorem fillLoopA_spec (ss : Nat) (c : Char) :
    ∀ (n i : Nat) (st : St),
      (fillLoopA ss c i n st).cap = st.cap ∧
      (fillLoopA ss c i n st).pos = st.pos ∧
      ∀ j, (fillLoopA ss c i n st).mem j =
        if ss + i ≤ j ∧ j < ss + i + n then c else st.mem j := by
  intro n
  induction n with
  | zero =>
    intro i st
    refine ⟨rfl, rfl, ?_⟩
    intro j
    rw [fillLoopA, if_neg (by omega : ¬(ss + i ≤ j ∧ j < ss + i + 0))]
  | succ m ih =>
    intro i st
    rw [fillLoopA]
    obtain ⟨h1, h2, h3⟩ := ih (i + 1) (writeMem st (ss + i) c)
    refine ⟨by rw [h1, writeMem_cap], by rw [h2, writeMem_pos], ?_⟩
    intro j
    rw [h3 j]
    by_cases hj1 : ss + (i + 1) ≤ j ∧ j < ss + (i + 1) + m
    · rw [if_pos hj1, if_pos (by omega)]
    · rw [if_neg hj1]
      by_cases hj2 : j = ss + i
      · subst hj2
        rw [writeMem_mem_eq, if_pos (by omega)]
      · rw [writeMem_mem_ne _ _ _ _ hj2, if_neg (by omega)]

theorem padString_right_exhaust (fuel : Nat) (st : St) (es pc : Int) (ps : PrintSpec)
    (hlj : ps.f.leftJustify = false) (hpos : st.pos ≤ st.cap)
    (hlt : (st.cap : Int) - st.pos < paddingAmountOf ps.width es pc) :
    (padString fuel st es pc ps).map Prod.fst = some (-1) := by
  have hpa : 0 < paddingAmountOf ps.width es pc := by omega
  obtain ⟨h1, h2, h3⟩ :=
    rightFillLoop_pw (if ps.f.leftPadWithZeroes ∧ ps.s ≠ Specifier.SPEC_S then '0' else ' ')
      (paddingAmountOf ps.width es pc).toNat 0 st hpos
  simp only [padString]
  rw [if_neg (by omega), if_neg (by simp [hlj])]
  rw [if_pos (by rw [h1]; omega)]
  rfl

theorem padString_right_fit (fuel : Nat) (st : St) (es pc : Nat) (ps : PrintSpec)
    (hlj : ps.f.leftJustify = false) (hes : es ≤ st.pos) (hcap : st.cap < 4294967296)
    (hpa : 0 < paddingAmountOf ps.width es pc)
    (hfit : st.pos + (paddingAmountOf ps.width es pc).toNat ≤ st.cap) :
    ∃ st3, padString fuel st (es : Int) (pc : Int) ps = some (0, st3) ∧
      st3.cap = st.cap ∧
      st3.pos = st.pos + (paddingAmountOf ps.width es pc).toNat ∧
      (∀ j, j < st.pos - es → st3.mem j = st.mem j) ∧
      (∀ i, i < (paddingAmountOf ps.width es pc).toNat →
        st3.mem (st.pos - es + i) =
          (if ps.f.leftPadWithZeroes ∧ ps.s ≠ Specifier.SPEC_S then '0' else ' ')) ∧
      (∀ i, i < es →
        st3.mem (st.pos - es + (paddingAmountOf ps.width es pc).toNat + i) =
          st.mem (st.pos - es + i)) := by
  have hpos : st.pos ≤ st.cap := by omega
  set c : Char := if ps.f.leftPadWithZeroes ∧ ps.s ≠ Specifier.SPEC_S then '0' else ' ' with hc
  set pa : Nat := (paddingAmountOf ps.width es pc).toNat with hpan
  have hpa1 : 0 < pa := by omega
  obtain ⟨hf1, hf2, hf3⟩ := rightFillLoop_pw c pa 0 st hpos
  have hfmem := rightFillLoop_mem_full c pa 0 st (by omega)
  have hfmlow := rightFillLoop_mem_low c pa 0 st
  set st1 : St := (rightFillLoop c pa 0 st).2 with hst1
  have hss : u32 ((st.pos : Int) - (es : Int)) = st.pos - es := by
    unfold u32
    rw [Int.emod_eq_of_lt (by omega) (by omega)]
    omega
  obtain ⟨hs1, hs2, hs3, hs4, hs5⟩ := shiftLoop_spec (st.pos - es) pa es st1
  set st2 : St := shiftLoop (st.pos - es) pa es st1 with hst2
  obtain ⟨hl1, hl2, hl3⟩ := fillLoopA_spec (st.pos - es) c pa 0 st2
  set st3 : St := fillLoopA (st.pos - es) c 0 pa st2 with hst3
  refine ⟨st3, ?_, ?_, ?_, ?_, ?_, ?_⟩
  · simp only [padString]
    rw [if_neg (by omega), if_neg (by simp [hlj])]
    rw [if_neg (by rw [← hc, hf1]; omega)]
    rw [if_neg (by omega : ¬ (es : Int) < 0), hss, ← hc, ← hpan, ← hst1]
    have hesn : (es : Int).toNat = es := by omega
    rw [hesn, ← hst2, ← hst3]
  · rw [hl1, hs1, hf3]
  · rw [hl2, hs2, hf2]
    omega
  · intro j hj
    rw [hl3 j, if_neg (by omega), hs3 j (by omega), hfmlow j (by omega)]
  · intro i hi
    rw [hl3 (st.pos - es + i), if_pos (by omega)]
  · intro i hi
    rw [hl3 (st.pos - es + pa + i), if_neg (by omega)]
    have : st.pos - es + pa + i = st.pos - es + i + pa := by omega
    rw [this, hs5 i (by omega), hfmem (st.pos - es + i), if_neg (by omega)]

theorem padString_left_none (fuel : Nat) (st : St) (es pc : Int) (ps : PrintSpec)
    (hlj : ps.f.leftJustify = true) (hfull : st.cap ≤ st.pos)
    (hpa : 0 < paddingAmountOf ps.width es pc) :
    padString fuel st es pc ps = none := by
  simp only [padString]
  rw [if_neg (by omega), if_pos hlj, leftFillLoop_none _ fuel 0 st hfull (by omega)]

theorem printStringScan_stop (string : List Char) (maxU fuel printed : Nat) (st : St)
    (h : ¬(printed < maxU ∧ st.pos < st.cap)) :
    printStringScan string maxU fuel printed st = some (printed, st) := by
  cases fuel <;> (rw [printStringScan, if_neg h])

theorem printStringScan_step (string : List Char) (maxU fuel printed : Nat) (st : St)
    (hg : printed < maxU ∧ st.pos < st.cap)
    (hs : string.getD printed nullChar ≠ nullChar) :
    printStringScan string maxU (fuel + 1) printed st =
      printStringScan string maxU fuel (printed + 1) (printChar (string.getD printed nullChar) st).2 := by
  rw [printStringScan, if_pos hg, if_neg hs]

theorem printString_ab_none (fuel : Nat) : printString fuel psC2 (initSt 2) ['a', 'b'] = none := by
  obtain _ | _ | n := fuel
  · rfl
  · rfl
  · simp only [printString]
    rw [printStringScan_step _ _ _ _ _ (by decide) (by decide),
      printStringScan_step _ _ _ _ _ (by decide) (by decide),
      printStringScan_stop _ _ _ _ _ (by decide)]
    exact padString_left_none (n + 1 + 1) _ _ 0 psC2 rfl (by decide) (by decide)

theorem nextToken_c2_none (n : Nat) :
    nextToken n ['%', '-', '5', 's'] 0 (initSt 2) [Arg.s ['a', 'b']] = none := by
  obtain _ | m := n
  · rfl
  · have hflags : readFlagsLoop ['%', '-', '5', 's'] (m + 1) 1
        { leftJustify := false, forcePlusMinus := false, spacePrefixPositiveNumber := false,
          zeroPrefixedOrForceDecimal := false, leftPadWithZeroes := false } =
        some (2, fC2) := by
      rw [show readFlagsLoop ['%', '-', '5', 's'] (m + 1) 1
            { leftJustify := false, forcePlusMinus := false, spacePrefixPositiveNumber := false,
              zeroPrefixedOrForceDecimal := false, leftPadWithZeroes := false } =
            readFlagsLoop ['%', '-', '5', 's'] m 2 fC2 from rfl]
      cases m <;> rfl
    have hwidth : readUnsigned (m + 1) ['%', '-', '5', 's'] 2 = some (true, 5, 3) := by
      rw [show readUnsigned (m + 1) ['%', '-', '5', 's'] 2 =
            readUnsignedLoop ['%', '-', '5', 's'] m 3 5 true from rfl]
      cases m <;> rfl
    have hlen : ∀ k, readLengthLoop ['%', '-', '5', 's'] k 3 Length.LENGTH_DEFAULT =
        some (3, Length.LENGTH_DEFAULT) := fun k => by cases k <;> rfl
    have hps : printString (m + 1)
        { f := { leftJustify := true, forcePlusMinus := false, spacePrefixPositiveNumber := false,
                 zeroPrefixedOrForceDecimal := false, leftPadWithZeroes := false },
          width := 5, precision := -1, vs := -1, length := Length.LENGTH_DEFAULT,
          s := Specifier.SPEC_S } (initSt 2) ['a', 'b'] = none :=
      printString_ab_none (m + 1)
    simp [nextToken, hflags, hwidth, hlen, dispatchSpecifier, popStr, hps, fC2, psC2,
      initPrintSpec, s32, u32, nullChar]

/-! The claim theorems. -/

/-- C1: the claim states that a render call never stores a byte at or beyond
index N - 1 (in particular never at or beyond the capacity N) and leaves a
null terminator at or before index N - 1.  The code violates this: rendering
the template consisting of the single character a into a buffer of capacity
2 ends with outPos = 1, the null-termination guard outPos < outSize - 1
fails, and the terminator store at outPos - 1 - 1 underflows the unsigned
32-bit offset, storing at index 4294967295 - far beyond the capacity, and
leaving no terminator at or before index 1.  The store log of the run shows
exactly the in-bounds store of a at index 0 and the wild terminator store. -/
theorem claim_C1_terminator_out_of_bounds :
    (myPrintf 10 (initSt 2) ['a'] []).map (fun r => (r.1, r.2.log)) =
      some (0, [(4294967295, nullChar), (0, 'a')]) := by decide


/-- C2: the claim states that every render call terminates, and in
particular that the left-justification space-fill loop of padString
terminates even when the output buffer is already full.  It does not: once
the buffer is full, printChar returns 0, paddingWritten stops advancing, and
the loop at src/printf.c lines 156-158 spins forever.  Rendering the
directive percent minus 5 s with the two-character argument ab into a
capacity-2 buffer fills the buffer before the fill loop starts, and the run
returns no result for ANY amount of fuel, which in this embedding is
exactly non-termination of the C code. -/
theorem claim_C2_render_call_diverges (fuel : Nat) :
    myPrintf fuel (initSt 2) ['%', '-', '5', 's'] [Arg.s ['a', 'b']] = none := by
  obtain _ | n := fuel
  · rfl
  · have h : nextToken n ['%', '-', '5', 's'] 0
        { cap := 2, pos := 0, mem := fun _ => Char.ofNat 0, log := [] } [Arg.s ['a', 'b']] =
        none := nextToken_c2_none n
    simp [myPrintf, myPrintfLoop, h, initSt, nullChar]

/-- C3 counterexample: the claim states that with value 0 and precision 0
the sign and the width padding are still produced exactly as for any other
value.  With the force-sign flag, width 5 and precision 0, rendering the
value 0 through printLong returns at once with the state untouched (no sign,
no padding, empty store log), while rendering the value 1 through the same
specification does store a plus sign - so the sign is not produced for 0 as
it would be for another value. -/
theorem claim_C3_counterexample_sign_dropped :
    printLong 100 psPlus (initSt 10) 0 = some (0, initSt 10) ∧
    (printLong 100 psPlus (initSt 10) 0).elim [] (fun r => r.2.log) = [] ∧
    '+' ∈ (printLong 100 psPlus (initSt 10) 1).elim [] (fun r => r.2.log.map Prod.snd) :=
  ⟨rfl, by decide, by decide⟩


/-- C3 (amended): when the length-truncated value is 0 and the precision is
0, each of the four integer conversions (printLong, printOctal,
printUnsignedLong, printHex) writes nothing at all and returns success 0:
no digits, and also no sign, no hex prefix and no width padding, because
the early return at the top of each function precedes the sign, prefix and
padding code. -/
theorem claim_C3_zero_precision_renders_nothing (fuel : Nat) (ps : PrintSpec) (st : St) (v : Int) (n : Nat)
    (hp : ps.precision = 0) :
    (printLongTrunc ps.length v = 0 → printLong fuel ps st v = some (0, st)) ∧
    (wrapValueToSize ps n = 0 →
      printOctal fuel ps st n = some (0, st) ∧
      printUnsignedLong fuel ps st n = some (0, st) ∧
      printHex fuel ps st n = some (0, st)) := by
  constructor
  · intro hv
    simp [printLong, hv, hp]
  · intro hn
    refine ⟨?_, ?_, ?_⟩ <;> simp [printOctal, printUnsignedLong, printHex, hn, hp]

/-- C3 witness: the amended theorem applied at the force-sign width-5
precision-0 specification, value 0, on a fresh capacity-4 buffer. -/
theorem claim_C3_witness :
    psPlus.precision = 0 ∧ printLongTrunc psPlus.length 0 = 0 ∧ wrapValueToSize psPlus 0 = 0 ∧
    printLong 7 psPlus (initSt 4) 0 = some (0, initSt 4) ∧
    printOctal 7 psPlus (initSt 4) 0 = some (0, initSt 4) ∧
    printUnsignedLong 7 psPlus (initSt 4) 0 = some (0, initSt 4) ∧
    printHex 7 psPlus (initSt 4) 0 = some (0, initSt 4) :=
  have h := claim_C3_zero_precision_renders_nothing 7 psPlus (initSt 4) 0 0 rfl
  ⟨rfl, by decide, by decide, h.1 (by decide), (h.2 (by decide)).1,
    (h.2 (by decide)).2.1, (h.2 (by decide)).2.2⟩


/-- C4 counterexample: the claim states that exhausting the buffer is never
reported as a failure status and that the render call still returns the
non-error truncation outcome.  Rendering the directive percent 5 d with the
argument 7 into a capacity-3 buffer exhausts the buffer during the
right-justification fill, padString returns -1, and the render call reports
-1, not the non-error outcome 0. -/
theorem claim_C4_counterexample_error_status :
    (myPrintf 100 (initSt 3) ['%', '5', 'd'] [Arg.i 7]).map (fun r => r.1) = some (-1) := by
  decide


/-- C4 (amended): single dropped characters are indeed silent - printChar
on a full buffer returns 0 and leaves the state untouched, and no caller
treats that as an error - but a padding step that no longer fits is NOT a
no-op: whenever the requested (positive) padding amount exceeds the
remaining capacity, the right-justification branch of padString fills what
it can and then returns the error status -1, which the conversions and the
render call propagate. -/
theorem claim_C4_exhaustion_behavior :
    (∀ (c : Char) (st : St), st.cap ≤ st.pos → printChar c st = (0, st)) ∧
    (∀ (fuel : Nat) (st : St) (es pc : Int) (ps : PrintSpec),
      ps.f.leftJustify = false → st.pos ≤ st.cap →
      (st.cap : Int) - st.pos < paddingAmountOf ps.width es pc →
      (padString fuel st es pc ps).map Prod.fst = some (-1)) :=
  ⟨printChar_drop, padString_right_exhaust⟩


/-- C4 witness: the silent drop on a full capacity-2 state, and the -1
padding outcome for a width-5 field with one digit already written into a
capacity-2 buffer. -/
theorem claim_C4_witness :
    stFull.cap ≤ stFull.pos ∧ printChar 'z' stFull = (0, stFull) ∧
    psNoLJ.f.leftJustify = false ∧ stPart.pos ≤ stPart.cap ∧
    (stPart.cap : Int) - stPart.pos < paddingAmountOf psNoLJ.width 1 0 ∧
    (padString 5 stPart 1 0 psNoLJ).map Prod.fst = some (-1) :=
  have h := claim_C4_exhaustion_behavior
  ⟨by decide, h.1 'z' stFull (by decide), rfl, by decide, by decide,
    h.2 5 stPart 1 0 psNoLJ rfl (by decide) (by decide)⟩

/-- C5 counterexample: the claim states that for every width and value
rendered with the zero-pad flag and right justification the zero fill
characters appear strictly between the sign and the first digit.  Rendering
the directive percent plus 0 9 d with the argument 7 into a capacity-5
buffer writes the sign at index 0 and the digit 7 at index 1, then the fill
runs out of buffer after storing zeroes at indices 2-4, padString returns
-1 before the digits are moved, and after null-termination the resulting
string is plus, 7, 0: a zero fill character stands AFTER the first (and
only) digit, not strictly between the sign and the digit. -/
theorem claim_C5_counterexample_fill_after_digit :
    (myPrintf 100 (initSt 5) ['%', '+', '0', '9', 'd'] [Arg.i 7]).map
      (fun r => (r.1, bufString r.2)) = some (-1, ['+', '7', '0']) := by decide


/-- C5 (amended): in the right-justification branch of padString nothing is
ever stored below the start of the digit field, so no fill character ever
precedes a sign character or a hex prefix, whatever the outcome; and
whenever the (positive) padding fully fits into the remaining capacity and
the zero-pad flag is set on a non-string conversion, the final layout is
exact: the bytes below the digit-field start (where the callers keep the
sign or the 0x prefix) are unchanged, the zero fill occupies precisely the
positions from the field start up to the padding amount, and the digits
follow, shifted up intact. -/
theorem claim_C5_zero_fill_placement (fuel : Nat) (st : St) (es pc : Nat) (ps : PrintSpec)
    (hlj : ps.f.leftJustify = false) (hes : es ≤ st.pos) (hpos : st.pos ≤ st.cap)
    (hcap : st.cap < 4294967296) :
    (∀ r, padString fuel st (es : Int) (pc : Int) ps = some r →
      ∀ j, j < st.pos - es → r.2.mem j = st.mem j) ∧
    (ps.f.leftPadWithZeroes = true → ps.s ≠ Specifier.SPEC_S →
      0 < paddingAmountOf ps.width es pc →
      st.pos + (paddingAmountOf ps.width es pc).toNat ≤ st.cap →
      ∃ st3, padString fuel st (es : Int) (pc : Int) ps = some (0, st3) ∧
        st3.cap = st.cap ∧
        st3.pos = st.pos + (paddingAmountOf ps.width es pc).toNat ∧
        (∀ j, j < st.pos - es → st3.mem j = st.mem j) ∧
        (∀ i, i < (paddingAmountOf ps.width es pc).toNat → st3.mem (st.pos - es + i) = '0') ∧
        (∀ i, i < es →
          st3.mem (st.pos - es + (paddingAmountOf ps.width es pc).toNat + i) =
            st.mem (st.pos - es + i))) := by
  constructor
  · intro r hr j hj
    by_cases hpa : paddingAmountOf ps.width (es : Int) (pc : Int) ≤ 0
    · simp only [padString] at hr
      rw [if_pos hpa] at hr
      obtain rfl : (0, st) = r := by simpa using hr
      rfl
    · simp only [padString] at hr
      rw [if_neg hpa, if_neg (by simp [hlj])] at hr
      by_cases hne : paddingAmountOf ps.width (es : Int) (pc : Int) ≠
          (((rightFillLoop (if ps.f.leftPadWithZeroes ∧ ps.s ≠ Specifier.SPEC_S then '0' else ' ')
              (paddingAmountOf ps.width (es : Int) (pc : Int)).toNat 0 st).1 : Nat) : Int)
      · rw [if_pos hne] at hr
        obtain rfl : (-1, _) = r := by simpa using hr
        exact rightFillLoop_mem_low _ _ _ _ _ (by omega)
      · rw [if_neg hne, if_neg (by omega : ¬ ((es : Int) < 0))] at hr
        have hss : u32 ((st.pos : Int) - (es : Int)) = st.pos - es := by
          unfold u32
          rw [Int.emod_eq_of_lt (by omega) (by omega)]
          omega
        rw [hss, show ((es : Int)).toNat = es from by omega] at hr
        obtain rfl : (0, _) = r := by simpa using hr
        obtain ⟨_, _, hl3⟩ := fillLoopA_spec (st.pos - es)
          (if ps.f.leftPadWithZeroes ∧ ps.s ≠ Specifier.SPEC_S then '0' else ' ')
          (paddingAmountOf ps.width (es : Int) (pc : Int)).toNat 0
          (shiftLoop (st.pos - es) (paddingAmountOf ps.width (es : Int) (pc : Int)).toNat es
            (rightFillLoop (if ps.f.leftPadWithZeroes ∧ ps.s ≠ Specifier.SPEC_S then '0' else ' ')
              (paddingAmountOf ps.width (es : Int) (pc : Int)).toNat 0 st).2)
        rw [hl3 j, if_neg (by omega)]
        obtain ⟨_, _, hs3, _, _⟩ := shiftLoop_spec (st.pos - es)
          (paddingAmountOf ps.width (es : Int) (pc : Int)).toNat es
          (rightFillLoop (if ps.f.leftPadWithZeroes ∧ ps.s ≠ Specifier.SPEC_S then '0' else ' ')
            (paddingAmountOf ps.width (es : Int) (pc : Int)).toNat 0 st).2
        rw [hs3 j (by omega)]
        exact rightFillLoop_mem_low _ _ _ _ _ (by omega)
  · intro hzp hsp hpa hfit
    obtain ⟨st3, h1, h2, h3, h4, h5, h6⟩ :=
      padString_right_fit fuel st es pc ps hlj hes hcap hpa hfit
    refine ⟨st3, h1, h2, h3, h4, ?_, h6⟩
    intro i hi
    rw [h5 i hi, if_pos ⟨hzp, hsp⟩]


/-- C5 witness: the placement theorem applied to a capacity-10 state
holding a sign at index 0 and the digit 7 at index 1, with the zero-pad
width-4 signed specification: one digit, one prefix character, padding
amount 2. -/
theorem claim_C5_witness :
    psC5.f.leftJustify = false ∧ 1 ≤ stC5.pos ∧ stC5.pos ≤ stC5.cap ∧
    stC5.cap < 4294967296 ∧ psC5.f.leftPadWithZeroes = true ∧
    psC5.s ≠ Specifier.SPEC_S ∧ 0 < paddingAmountOf psC5.width 1 1 ∧
    stC5.pos + (paddingAmountOf psC5.width 1 1).toNat ≤ stC5.cap ∧
    (∃ st3, padString 7 stC5 ((1 : Nat) : Int) ((1 : Nat) : Int) psC5 = some (0, st3) ∧
      st3.cap = stC5.cap ∧
      st3.pos = stC5.pos + (paddingAmountOf psC5.width 1 1).toNat ∧
      (∀ j, j < stC5.pos - 1 → st3.mem j = stC5.mem j) ∧
      (∀ i, i < (paddingAmountOf psC5.width 1 1).toNat → st3.mem (stC5.pos - 1 + i) = '0') ∧
      (∀ i, i < 1 →
        st3.mem (stC5.pos - 1 + (paddingAmountOf psC5.width 1 1).toNat + i) =
          stC5.mem (stC5.pos - 1 + i))) :=
  have h := claim_C5_zero_fill_placement 7 stC5 1 1 psC5 rfl (by decide) (by decide) (by decide)
  ⟨rfl, by decide, by decide, by decide, rfl, by decide, by decide, by decide,
    h.2 rfl (by decide) (by decide) (by decide)⟩


/-- C6 counterexample: the claim states that rendering the directive
percent 0 7 dot 1 0 s with the argument hello produces exactly the field
hello with no padding characters.  It does not: the content is 5 characters
and the width is 7, so two fill characters are added. -/
theorem claim_C6_counterexample_no_padding :
    (myPrintf 100 (initSt 20) ['%', '0', '7', '.', '1', '0', 's']
      [Arg.s ['h', 'e', 'l', 'l', 'o']]).map (fun r => (r.1, bufString r.2)) ≠
      some (0, ['h', 'e', 'l', 'l', 'o']) := by decide

/-- C6 (amended): rendering the directive percent 0 7 dot 1 0 s with the
argument hello into a capacity-20 buffer produces the field consisting of
two spaces followed by hello: precision 10 exceeds the 5-character content
so nothing is truncated, width 7 exceeds the content so 2 fill characters
are added, and the fill is spaces, not zeroes, because padString never
zero-fills the string conversion. -/
theorem claim_C6_renders_space_padded_hello :
    (myPrintf 100 (initSt 20) ['%', '0', '7', '.', '1', '0', 's']
      [Arg.s ['h', 'e', 'l', 'l', 'o']]).map (fun r => (r.1, bufString r.2)) =
      some (0, [' ', ' ', 'h', 'e', 'l', 'l', 'o']) := by decide


/-- C7: the claim - and the documentation block in src/printf.c line 90 -
state that under the alternate-form flag the hex prefix appears only for
values different from zero.  The code emits the prefix before testing the
value: rendering the directive percent hash x with the argument 0 (and no
precision, so the precision-0 early return does not fire) produces the
string 0 x 0 - a prefix on a zero value - instead of the documented bare
0.  The unsigned-decimal and octal conversions never write a sign
character; printOctal and printUnsignedLong contain no call of printSign,
which this run of the embedding reflects (no sign appears). -/
theorem claim_C7_hex_prefix_on_zero :
    (myPrintf 100 (initSt 10) ['%', '#', 'x'] [Arg.n 0]).map
      (fun r => (r.1, bufString r.2)) = some (0, ['0', 'x', '0']) := by decide


/-- C8: the length modifier truncates by exact two's-complement wraparound
at the declared bit width, never by saturation: for unsigned values
wrapValueToSize is reduction modulo 2 to the declared bits, and for signed
values the truncation switch of printLong equals reduction modulo 2 to the
declared bits followed by sign extension - its result is congruent to the
argument and lies in the signed range of the declared width.  (A saturating
truncation could not be congruent to the argument at, say, 200 for the
8-bit width, where the result here is -56.) -/
theorem claim_C8_length_modifier_wraparound (ps : PrintSpec) (n : Nat) (v : Int)
    (hn : n < 2 ^ 64) (hv1 : -(2 ^ 63) ≤ v) (hv2 : v < 2 ^ 63) :
    wrapValueToSize ps n = n % 2 ^ declaredBits ps.length ∧
    printLongTrunc ps.length v = signExtend (declaredBits ps.length) v ∧
    printLongTrunc ps.length v % (2 : Int) ^ declaredBits ps.length =
      v % (2 : Int) ^ declaredBits ps.length ∧
    -((2 : Int) ^ (declaredBits ps.length - 1)) ≤ printLongTrunc ps.length v ∧
    printLongTrunc ps.length v < (2 : Int) ^ (declaredBits ps.length - 1) := by
  obtain ⟨f, w, p, vs, len, s⟩ := ps
  cases len <;>
    · simp only [wrapValueToSize, printLongTrunc, declaredBits, signExtend, s8, s16, s32]
      norm_num
      refine ⟨?_, ?_, ?_, ?_⟩ <;> omega

/-- C8 witness: the wraparound theorem applied at the 8-bit length modifier
with the unsigned value 300 and the signed value 200. -/
theorem claim_C8_witness :
    (300 : Nat) < 2 ^ 64 ∧ -(2 ^ 63) ≤ (200 : Int) ∧ (200 : Int) < 2 ^ 63 ∧
    wrapValueToSize psHH 300 = 300 % 2 ^ declaredBits psHH.length ∧
    printLongTrunc psHH.length 200 = signExtend (declaredBits psHH.length) 200 ∧
    printLongTrunc psHH.length 200 % (2 : Int) ^ declaredBits psHH.length =
      200 % (2 : Int) ^ declaredBits psHH.length ∧
    -((2 : Int) ^ (declaredBits psHH.length - 1)) ≤ printLongTrunc psHH.length 200 ∧
    printLongTrunc psHH.length 200 < (2 : Int) ^ (declaredBits psHH.length - 1) :=
  have h := claim_C8_length_modifier_wraparound psHH 300 200 (by decide) (by decide) (by decide)
  ⟨by decide, by decide, by decide, h.1, h.2.1, h.2.2.1, h.2.2.2.1, h.2.2.2.2⟩


/-- C9: the shortest-representation selection.  The effective precision is
the requested one, 6 when unset (the selector behaves at a negative request
exactly as at 6) and 1 when 0 is requested (the selector behaves at 0
exactly as at 1); with a positive requested precision p, the selector
delegates to fixed-point with precision p - (exponent + 1) exactly when
p exceeds the exponent and the exponent is at least -4, and otherwise to
scientific with precision p - 1.  The last component ties the abstracted
exponent to the value: when the magnitude is a / b with
b less than or equal to a times 10 to the k+1 and a times 10 to the k+1
less than 10 b - that is, the floor of its base-10 logarithm is -(1+k) -
and k is at least 4, the selection is scientific whatever the requested
precision; the value 10 to the -12 of the percent g example is the case
a = 1, b = 10 to the 12, k = 11. -/
theorem claim_C9_shortest_selection (pr e : Int) :
    (pr < 0 → printShortestFloatChoice pr e = printShortestFloatChoice 6 e) ∧
    (printShortestFloatChoice 0 e = printShortestFloatChoice 1 e) ∧
    (0 < pr → e < pr → -4 ≤ e →
      printShortestFloatChoice pr e = (FloatForm.fixed, pr - (e + 1))) ∧
    (0 < pr → ¬(e < pr ∧ -4 ≤ e) →
      printShortestFloatChoice pr e = (FloatForm.scientific, pr - 1)) ∧
    (∀ (a b k : Nat), 0 < b → 4 ≤ k → b ≤ a * 10 ^ (k + 1) → a * 10 ^ (k + 1) < 10 * b →
      e = -(1 + (k : Int)) → (printShortestFloatChoice pr e).1 = FloatForm.scientific) := by
  refine ⟨?_, ?_, ?_, ?_, ?_⟩
  · intro h
    simp only [printShortestFloatChoice]
    rw [if_pos h]
    norm_num
  · simp only [printShortestFloatChoice]
    norm_num
  · intro h1 h2 h3
    simp only [printShortestFloatChoice]
    rw [if_neg (by omega : ¬ pr < 0), if_neg (by omega : ¬ pr = 0), if_pos ⟨h2, h3⟩]
  · intro h1 h2
    simp only [printShortestFloatChoice]
    rw [if_neg (by omega : ¬ pr < 0), if_neg (by omega : ¬ pr = 0),
      if_neg (by exact fun hc => h2 ⟨hc.1, hc.2⟩)]
  · intro a b k hb hk h1 h2 he
    simp only [printShortestFloatChoice]
    rw [if_neg (by rintro ⟨h5, h6⟩; omega)]

/-- C9 witness: the selector theorem applied at the unset precision -1 and
the exponent -12 of the value 10 to the -12. -/
theorem claim_C9_witness :
    (0 : Nat) < 1000000000000 ∧ (4 : Nat) ≤ 11 ∧
    (1000000000000 : Nat) ≤ 1 * 10 ^ (11 + 1) ∧
    1 * 10 ^ (11 + 1) < 10 * 1000000000000 ∧
    (-12 : Int) = -(1 + ((11 : Nat) : Int)) ∧
    (printShortestFloatChoice (-1) (-12)).1 = FloatForm.scientific :=
  have h := claim_C9_shortest_selection (-1) (-12)
  ⟨by decide, by decide, by decide, by decide, by decide,
    h.2.2.2.2 1 1000000000000 11 (by decide) (by decide) (by decide) (by decide) (by decide)⟩


/-- C10: the char conversion ignores every flag, the width and the
precision of its directive: the dispatch of the conversion character c is
the same function of the state and argument for any two parsed
specifications and any two fuels, it is exactly one printChar call on the
argument reduced to an unsigned char (result -1 only when the character is
dropped), and when capacity remains it writes exactly that single character
and advances the cursor by one - no padding or justification is applied. -/
theorem claim_C10_char_ignores_spec (fuel1 fuel2 : Nat) (ps1 ps2 : PrintSpec) (st : St)
    (v : Int) (rest : List Arg) :
    dispatchSpecifier fuel1 'c' ps1 st (Arg.i v :: rest) =
      dispatchSpecifier fuel2 'c' ps2 st (Arg.i v :: rest) ∧
    dispatchSpecifier fuel1 'c' ps1 st (Arg.i v :: rest) =
      some (if (printChar (Char.ofNat (u32 v % 256)) st).1 ≠ 0 then 0 else -1,
        (printChar (Char.ofNat (u32 v % 256)) st).2, rest) ∧
    (st.pos < st.cap →
      dispatchSpecifier fuel1 'c' ps1 st (Arg.i v :: rest) =
        some (0, { writeMem st st.pos (Char.ofNat (u32 v % 256)) with pos := st.pos + 1 }, rest)) := by
  refine ⟨rfl, rfl, ?_⟩
  intro h
  simp [dispatchSpecifier, popInt, printChar, h]

/-- C10 witness: the char dispatch at two wildly different specifications
(the fresh one and one with every flag, width 9 and precision 7) on a
capacity-4 state with the argument 84, the letter T. -/
theorem claim_C10_witness :
    stRoom.pos < stRoom.cap ∧
    dispatchSpecifier 3 'c' initPrintSpec stRoom [Arg.i 84] =
      dispatchSpecifier 9 'c' psLoud stRoom [Arg.i 84] ∧
    dispatchSpecifier 3 'c' initPrintSpec stRoom [Arg.i 84] =
      some (0, { writeMem stRoom stRoom.pos (Char.ofNat (u32 84 % 256)) with
        pos := stRoom.pos + 1 }, []) :=
  have h := claim_C10_char_ignores_spec 3 9 initPrintSpec psLoud stRoom 84 []
  ⟨by decide, h.1, h.2.2 (by decide)⟩
